import Mathlib

/-!
Shallow embedding of the TropyToTumblr plugin (src/TropyToTumblr/index.js).

The plugin consists of a constructor that merges user options over placeholder
defaults, an `export` hook that extracts existing photo paths and a
deduplicated tag set from a JSON-LD payload and then calls the uploader, and
an uploader `postPhotosToTumblr` that builds a multipart form, signs the
request with OAuth 1.0a over an empty parameter set, and interprets the JSON
response.

JavaScript values are modelled by `JSVal`; property access that throws in
JavaScript (reading a field of `null` or `undefined`) is an `Except` error.
The filesystem existence check is an abstract predicate, and the settled
outcome of the network call is an explicit input of the export hook.
-/

namespace TropyToTumblr

/-- A JavaScript value, as far as the plugin code inspects them. -/
inductive JSVal : Type where
  | null : JSVal
  | undefined : JSVal
  | bool : Bool → JSVal
  | num : Int → JSVal
  | str : String → JSVal
  | arr : List JSVal → JSVal
  | obj : List (String × JSVal) → JSVal
deriving Repr

mutual

/-- Structural equality test on `JSVal` (SameValueZero on the fragments the
plugin compares: tags in the `Set`). -/
def JSVal.beq : JSVal → JSVal → Bool
  | .null, .null => true
  | .undefined, .undefined => true
  | .bool a, .bool b => a == b
  | .num a, .num b => a == b
  | .str a, .str b => a == b
  | .arr xs, .arr ys => JSVal.beqList xs ys
  | .obj xs, .obj ys => JSVal.beqFields xs ys
  | _, _ => false

/-- Equality test on lists of `JSVal`. -/
def JSVal.beqList : List JSVal → List JSVal → Bool
  | [], [] => true
  | x :: xs, y :: ys => JSVal.beq x y && JSVal.beqList xs ys
  | _, _ => false

/-- Equality test on field lists of `JSVal` objects. -/
def JSVal.beqFields : List (String × JSVal) → List (String × JSVal) → Bool
  | [], [] => true
  | (k, v) :: xs, (l, w) :: ys => k == l && JSVal.beq v w && JSVal.beqFields xs ys
  | _, _ => false

end

mutual

def JSVal.eq_of_beq : ∀ a b : JSVal, JSVal.beq a b = true → a = b
  | .null, .null, _ => rfl
  | .undefined, .undefined, _ => rfl
  | .bool a, .bool b, h => by simpa [JSVal.beq] using h
  | .num a, .num b, h => by simpa [JSVal.beq] using h
  | .str a, .str b, h => by simpa [JSVal.beq] using h
  | .arr xs, .arr ys, h => by
      rw [JSVal.eqList_of_beqList xs ys (by simpa [JSVal.beq] using h)]
  | .obj xs, .obj ys, h => by
      rw [JSVal.eqFields_of_beqFields xs ys (by simpa [JSVal.beq] using h)]

def JSVal.eqList_of_beqList : ∀ xs ys : List JSVal, JSVal.beqList xs ys = true → xs = ys
  | [], [], _ => rfl
  | x :: xs, y :: ys, h => by
      have h1 : JSVal.beq x y = true := by
        have := h; simp [JSVal.beqList, Bool.and_eq_true] at this; exact this.1
      have h2 : JSVal.beqList xs ys = true := by
        have := h; simp [JSVal.beqList, Bool.and_eq_true] at this; exact this.2
      rw [JSVal.eq_of_beq x y h1, JSVal.eqList_of_beqList xs ys h2]

def JSVal.eqFields_of_beqFields :
    ∀ xs ys : List (String × JSVal), JSVal.beqFields xs ys = true → xs = ys
  | [], [], _ => rfl
  | (k, v) :: xs, (l, w) :: ys, h => by
      have h0 : k = l := by
        have := h; simp [JSVal.beqFields, Bool.and_eq_true] at this; exact this.1.1
      have h1 : JSVal.beq v w = true := by
        have := h; simp [JSVal.beqFields, Bool.and_eq_true] at this; exact this.1.2
      have h2 : JSVal.beqFields xs ys = true := by
        have := h; simp [JSVal.beqFields, Bool.and_eq_true] at this; exact this.2
      rw [h0, JSVal.eq_of_beq v w h1, JSVal.eqFields_of_beqFields xs ys h2]

end

mutual

def JSVal.beq_refl : ∀ a : JSVal, JSVal.beq a a = true
  | .null => rfl
  | .undefined => rfl
  | .bool a => by simp [JSVal.beq]
  | .num a => by simp [JSVal.beq]
  | .str a => by simp [JSVal.beq]
  | .arr xs => by simpa [JSVal.beq] using JSVal.beqList_refl xs
  | .obj xs => by simpa [JSVal.beq] using JSVal.beqFields_refl xs

def JSVal.beqList_refl : ∀ xs : List JSVal, JSVal.beqList xs xs = true
  | [] => rfl
  | x :: xs => by
      simp [JSVal.beqList, Bool.and_eq_true]
      exact ⟨JSVal.beq_refl x, JSVal.beqList_refl xs⟩

def JSVal.beqFields_refl : ∀ xs : List (String × JSVal), JSVal.beqFields xs xs = true
  | [] => rfl
  | (k, v) :: xs => by
      simp [JSVal.beqFields, Bool.and_eq_true]
      exact ⟨JSVal.beq_refl v, JSVal.beqFields_refl xs⟩

end

instance : DecidableEq JSVal := fun a b =>
  decidable_of_iff (JSVal.beq a b = true)
    ⟨JSVal.eq_of_beq a b, fun h => h ▸ JSVal.beq_refl a⟩

/-- A JavaScript runtime exception (only `TypeError` arises in this code). -/
inductive JSError : Type where
  | typeError : String → JSError
deriving DecidableEq, Repr

/-- JavaScript truthiness, as used by `if (p.path ...)` and `if (!data ...)`. -/
def truthy : JSVal → Bool
  | .null => false
  | .undefined => false
  | .bool b => b
  | .num n => n != 0
  | .str s => !s.isEmpty
  | .arr _ => true
  | .obj _ => true

/-- Property lookup on a JavaScript object literal: a later duplicate key
shadows an earlier one. -/
def objLookup (fields : List (String × JSVal)) (k : String) : Option JSVal :=
  (fields.reverse.find? (fun kv => kv.1 == k)).map (fun kv => kv.2)

/-- JavaScript property access `v[k]` / `v.k`: throws a `TypeError` on `null`
and `undefined`, returns the field of an object (or `undefined` when absent),
and returns `undefined` on the primitives and arrays for the keys this plugin
reads. -/
def getField : JSVal → String → Except JSError JSVal
  | .null, k => .error (.typeError ("Cannot read properties of null (reading " ++ k ++ ")"))
  | .undefined, k => .error (.typeError ("Cannot read properties of undefined (reading " ++ k ++ ")"))
  | .obj fields, k => .ok ((objLookup fields k).getD .undefined)
  | _, _ => .ok .undefined

/-- Non-throwing view of `getField` (meaningful where the code cannot throw). -/
def getFieldD (v : JSVal) (k : String) : JSVal :=
  ((getField v k).toOption).getD .undefined

/-- `Array.isArray`. -/
def isArray : JSVal → Bool
  | .arr _ => true
  | _ => false

mutual

/-- The string conversion used by `Array.prototype.join`: `null` and
`undefined` become the empty string, other values convert as `String(v)`. -/
def jsToStr : JSVal → String
  | .null => ""
  | .undefined => ""
  | .bool b => if b then "true" else "false"
  | .num n => toString n
  | .str s => s
  | .arr xs => jsToStrList xs
  | .obj _ => "[object Object]"

/-- Comma join of the element conversions, as `Array.prototype.toString`. -/
def jsToStrList : List JSVal → String
  | [] => ""
  | [x] => jsToStr x
  | x :: y :: xs => jsToStr x ++ "," ++ jsToStrList (y :: xs)

end

/-- String escaping of `JSON.stringify` for the characters this development
evaluates on (quote, backslash, and the common control characters). -/
def jsonEscapeChar (c : Char) : String :=
  if c = '\"' then "\\\""
  else if c = '\\' then "\\\\"
  else if c = '\n' then "\\n"
  else if c = '\t' then "\\t"
  else if c = '\r' then "\\r"
  else String.singleton c

def jsonEscape (s : String) : String :=
  String.join (s.toList.map jsonEscapeChar)

mutual

/-- `JSON.stringify`. A parsed JSON document never contains `undefined`; the
`undefined` case is mapped to `null` and is unreachable from `response.json()`
results. -/
def jsonStringify : JSVal → String
  | .null => "null"
  | .undefined => "null"
  | .bool b => if b then "true" else "false"
  | .num n => toString n
  | .str s => "\"" ++ jsonEscape s ++ "\""
  | .arr xs => "[" ++ jsonStringifyList xs ++ "]"
  | .obj fields => "\x7b" ++ jsonStringifyFields fields ++ "\x7d"

def jsonStringifyList : List JSVal → String
  | [] => ""
  | [x] => jsonStringify x
  | x :: y :: xs => jsonStringify x ++ "," ++ jsonStringifyList (y :: xs)

def jsonStringifyFields : List (String × JSVal) → String
  | [] => ""
  | [(k, v)] => "\"" ++ jsonEscape k ++ "\":" ++ jsonStringify v
  | (k, v) :: kv :: xs =>
      "\"" ++ jsonEscape k ++ "\":" ++ jsonStringify v ++ "," ++ jsonStringifyFields (kv :: xs)

end

/-! ## Constructor: option merge (index.js lines 15-40, 171-177) -/

/-- `TropyToTumblr.defaults` from the bottom of index.js. -/
def defaults : List (String × JSVal) :=
  [("blogName", .str "YOUR_BLOG_NAME"),
   ("consumerKey", .str "YOUR_DEFAULT_CONSUMER_KEY"),
   ("consumerSecret", .str "YOUR_DEFAULT_CONSUMER_SECRET"),
   ("token", .str "YOUR_DEFAULT_TOKEN"),
   ("tokenSecret", .str "YOUR_DEFAULT_TOKEN_SECRET")]

/-- Object spread `\x7b...base, ...override\x7d`: the override entries come
after the base entries, so on lookup they win key by key. -/
def spreadMerge (base override : List (String × JSVal)) : List (String × JSVal) :=
  base ++ override

/-- The five credential fields destructured from the merged options in the
constructor. -/
structure Config : Type where
  blogName : JSVal
  consumerKey : JSVal
  consumerSecret : JSVal
  token : JSVal
  tokenSecret : JSVal
deriving DecidableEq, Repr

/-- The constructor body: merge user options over defaults and destructure
(destructuring an absent key yields `undefined`). -/
def mkConfig (options : List (String × JSVal)) : Config :=
  let merged := spreadMerge defaults options
  { blogName := (objLookup merged "blogName").getD .undefined
    consumerKey := (objLookup merged "consumerKey").getD .undefined
    consumerSecret := (objLookup merged "consumerSecret").getD .undefined
    token := (objLookup merged "token").getD .undefined
    tokenSecret := (objLookup merged "tokenSecret").getD .undefined }

/-! ## Extraction (index.js lines 72-93) -/

/-- The inner photo loop:
`for (const p of node.photo) if (p.path && fs.existsSync(p.path)) photoPaths.push(p.path)`.
`fs` is the filesystem existence check at call time. -/
def photoFold (fs : JSVal → Bool) : List JSVal → List JSVal → Except JSError (List JSVal)
  | [], acc => .ok acc
  | p :: ps, acc =>
    match getField p "path" with
    | .error e => .error e
    | .ok path => photoFold fs ps (if truthy path && fs path then acc ++ [path] else acc)

/-- Photo paths contributed by one node: the inner loop runs only when
`Array.isArray(node.photo)`. -/
def photoPathsOfNode (fs : JSVal → Bool) (node : JSVal) : Except JSError (List JSVal) :=
  match getField node "photo" with
  | .error e => .error e
  | .ok (.arr ps) => photoFold fs ps []
  | .ok _ => .ok []

/-- Tags contributed by one node: `node.tag` when it is an array, else none. -/
def tagsOfNode (node : JSVal) : Except JSError (List JSVal) :=
  match getField node "tag" with
  | .error e => .error e
  | .ok (.arr ts) => .ok ts
  | .ok _ => .ok []

/-- `allTags.add(tag)` on the insertion-ordered JavaScript `Set`, represented
as a duplicate-free list. -/
def addTag (acc : List JSVal) (t : JSVal) : List JSVal :=
  if t ∈ acc then acc else acc ++ [t]

/-- The `for (const node of data[graph])` loop, accumulating photo paths and
the tag set; a thrown property access aborts the loop. -/
def extractLoop (fs : JSVal → Bool) :
    List JSVal → List JSVal → List JSVal → Except JSError (List JSVal × List JSVal)
  | [], paths, tags => .ok (paths, tags)
  | node :: rest, paths, tags =>
    match photoPathsOfNode fs node with
    | .error e => .error e
    | .ok ps =>
      match tagsOfNode node with
      | .error e => .error e
      | .ok ts => extractLoop fs rest (paths ++ ps) (ts.foldl addTag tags)

/-- Extraction over the whole graph, starting from empty accumulators. -/
def extractAll (fs : JSVal → Bool) (nodes : List JSVal) :
    Except JSError (List JSVal × List JSVal) :=
  extractLoop fs nodes [] []

/-! ## Uploader `postPhotosToTumblr` (index.js lines 112-165) -/

/-- One part of the multipart form: a string field or a streamed file. -/
inductive FormPart : Type where
  | field : String → String → FormPart
  | file : String → JSVal → FormPart
deriving DecidableEq, Repr

/-- Whether a form part is a binary (file) part. -/
def FormPart.isFile : FormPart → Bool
  | .file _ _ => true
  | _ => false

/-- `tags.join(String.singleton (Char.ofNat 44))` of the comma. -/
def joinTags (tags : List JSVal) : String :=
  String.intercalate "," (tags.map jsToStr)

/-- The multipart body built by `postPhotosToTumblr`: the fixed type field,
the caption, the comma-joined tags field only when tags are present, and one
`data[]` file part per photo path. -/
def buildForm (photoPaths : List JSVal) (caption : String) (tags : List JSVal) :
    List FormPart :=
  [FormPart.field "type" "photo", FormPart.field "caption" caption]
    ++ (if tags.length > 0 then [FormPart.field "tags" (joinTags tags)] else [])
    ++ photoPaths.map (fun p => FormPart.file "data[]" p)

/-- The endpoint URL templated from the configured blog name. -/
def tumblrUrl (blogName : String) : String :=
  "https://api.tumblr.com/v2/blog/" ++ blogName ++ ".tumblr.com/post"

/-- The request description handed to `oauth.authorize`: URL, method, and the
request parameter set, which the code fixes to the empty object. -/
structure OAuthRequest : Type where
  url : String
  method : String
  data : List (String × String)
deriving DecidableEq, Repr

/-- `requestData` as built in `postPhotosToTumblr`. -/
def requestDataOf (blogName : String) : OAuthRequest :=
  { url := tumblrUrl blogName, method := "POST", data := [] }

instance {ε α : Type} [DecidableEq ε] [DecidableEq α] : DecidableEq (Except ε α) := by
  intro a b
  cases a with
  | error e =>
      cases b with
      | error f => exact decidable_of_iff (e = f) (by constructor <;> (intro h; simp_all))
      | ok y => exact isFalse (by simp)
  | ok x =>
      cases b with
      | error f => exact isFalse (by simp)
      | ok y => exact decidable_of_iff (x = y) (by constructor <;> (intro h; simp_all))

/-- A settled platform response: the HTTP status and the settled result of
`response.json()` (`.error` when the body is not valid JSON, carrying the
string form of the parse error). -/
structure TumblrResponse : Type where
  status : Nat
  jsonResult : Except String JSVal
deriving DecidableEq, Repr

/-- `response.ok` of node-fetch v2: status in [200, 300). -/
def responseOk (status : Nat) : Bool :=
  decide (200 ≤ status) && decide (status < 300)

/-- Response handling at the end of `postPhotosToTumblr`: a JSON parse
failure throws first, then a non-ok status throws with the status and the
serialized body, otherwise the parsed body is returned unchanged. -/
def handleResponse (resp : TumblrResponse) : Except String JSVal :=
  match resp.jsonResult with
  | .error parseErr => .error ("Tumblr response is not valid JSON: " ++ parseErr)
  | .ok json =>
      if !(responseOk resp.status) then
        .error ("Tumblr API error (status=" ++ toString resp.status ++ "): "
                  ++ jsonStringify json)
      else
        .ok json

/-- Everything `postPhotosToTumblr` builds and settles on: the multipart
form, the signed request description, and the result of one attempt. -/
structure UploadTrace : Type where
  form : List FormPart
  request : OAuthRequest
  result : Except String JSVal
deriving DecidableEq, Repr

/-- `postPhotosToTumblr(photoPaths, caption, tags)` against a settled
platform response. -/
def postPhotosToTumblr (blogName : String) (photoPaths : List JSVal)
    (caption : String) (tags : List JSVal) (resp : TumblrResponse) : UploadTrace :=
  { form := buildForm photoPaths caption tags
    request := requestDataOf blogName
    result := handleResponse resp }

/-! ## Export hook (index.js lines 63-109) -/

/-- One call on the host-injected logger. -/
inductive LogEvent : Type where
  | info : String → LogEvent
  | error : String → LogEvent
deriving DecidableEq, Repr

/-- The arguments `export` passes to `postPhotosToTumblr`. -/
structure UploadArgs : Type where
  photoPaths : List JSVal
  caption : String
  tags : List JSVal
deriving DecidableEq, Repr

/-- The observable outcome of one `export` call: the log, the upload call if
one was made, and the exception propagated to the host if one escaped. -/
structure ExportOutcome : Type where
  logs : List LogEvent
  uploadCall : Option UploadArgs
  thrown : Option JSError
deriving DecidableEq, Repr

def receivedMsg : String := "TropyToTumblr.export() received data:"

def noItemsMsg : String := "No items found in the Tropy export data."

def noLocalPhotosMsg : String := "No local photos found among the selected items."

def postingMsg (count : Nat) (blogName : String) : String :=
  "Posting " ++ toString count ++ " photo(s) to Tumblr blog \"" ++ blogName
    ++ "\" with tags:"

def successMsg : String := "Posted to Tumblr successfully:"

def failedMsg (m : String) : String := "Failed to post photos to Tumblr: " ++ m

/-- The `export(data)` hook. `fs` is the filesystem existence check and
`uploadResult` the settled outcome of the awaited `postPhotosToTumblr` call
(its `.error` string is the thrown `err.message`); the network is outside the
model, so that outcome is an input. The try/catch wraps only the upload call,
so an exception thrown during extraction ends in `thrown`. -/
def exportHook (fs : JSVal → Bool) (blogName : String) (data : JSVal)
    (uploadResult : Except String JSVal) : ExportOutcome :=
  let l0 : List LogEvent := [LogEvent.info receivedMsg]
  let noItems : ExportOutcome :=
    { logs := l0 ++ [LogEvent.info noItemsMsg], uploadCall := none, thrown := none }
  if truthy data = false then noItems
  else
    match getField data "@graph" with
    | .error e => { logs := l0, uploadCall := none, thrown := some e }
    | .ok g =>
      match g with
      | .arr nodes =>
        if nodes.isEmpty then noItems
        else
          match extractAll fs nodes with
          | .error e => { logs := l0, uploadCall := none, thrown := some e }
          | .ok (photoPaths, tagArray) =>
            if photoPaths.isEmpty then
              { logs := l0 ++ [LogEvent.info noLocalPhotosMsg]
                uploadCall := none, thrown := none }
            else
              let l1 := l0 ++ [LogEvent.info (postingMsg photoPaths.length blogName)]
              let args : UploadArgs :=
                { photoPaths := photoPaths, caption := "", tags := tagArray }
              match uploadResult with
              | .ok _ =>
                  { logs := l1 ++ [LogEvent.info successMsg]
                    uploadCall := some args, thrown := none }
              | .error m =>
                  { logs := l1 ++ [LogEvent.error (failedMsg m)]
                    uploadCall := some args, thrown := none }
      | _ => noItems

/-! ## Declarative characterizations of extraction -/

/-- A photo entry contributes its `path` exactly when the path is truthy
(for a string path: non-empty) and the existence check succeeds. -/
def photoEntryKept (fs : JSVal → Bool) (p : JSVal) : Option JSVal :=
  let path := getFieldD p "path"
  if truthy path && fs path then some path else none

/-- The photo entry list of a node (`node.photo` when it is an array). -/
def nodePhotoList (node : JSVal) : List JSVal :=
  match getFieldD node "photo" with
  | .arr ps => ps
  | _ => []

/-- The tag list of a node (`node.tag` when it is an array). -/
def nodeTagList (node : JSVal) : List JSVal :=
  match getFieldD node "tag" with
  | .arr ts => ts
  | _ => []

/-- Declarative form of the collected path list: all kept photo paths, in
graph order. -/
def collectedPathsSpec (fs : JSVal → Bool) (nodes : List JSVal) : List JSVal :=
  nodes.flatMap (fun node => (nodePhotoList node).filterMap (photoEntryKept fs))

/-- Declarative form of the tag stream: all tag entries of all nodes, with
duplicates. -/
def collectedTagsSpec (nodes : List JSVal) : List JSVal :=
  nodes.flatMap nodeTagList

/-! ## Concrete inputs used in the theorems -/

/-- A filesystem stub on which every path exists. -/
def fsAll : JSVal → Bool := fun _ => true

/-- A filesystem stub on which no path exists. -/
def fsNone : JSVal → Bool := fun _ => false

/-- A payload with a non-empty graph whose photo array contains `null`:
reading `p.path` on it throws in the extraction loop. -/
def badPhotoPayload : JSVal :=
  .obj [("@graph", .arr [.obj [("photo", .arr [.null])]])]

/-- Two items: one with an existing photo and tags `[a, b, a]`, one with
tags `[b, c]`. -/
def tagNodes : List JSVal :=
  [.obj [("photo", .arr [.obj [("path", .str "p1")]]),
         ("tag", .arr [.str "a", .str "b", .str "a"])],
   .obj [("tag", .arr [.str "b", .str "c"])]]

/-- A payload with one existing photo and tag lists `[a, b, a]` and
`[b, c]` across its two items. -/
def tagPayload : JSVal :=
  .obj [("@graph", .arr tagNodes)]

/-- A payload with one item holding one photo with path `p1` and no tags. -/
def onePhotoPayload : JSVal :=
  .obj [("@graph", .arr [.obj [("photo", .arr [.obj [("path", .str "p1")]])]])]

theorem getFieldD_of_getField {v : JSVal} {k : String} {w : JSVal}
    (h : getField v k = .ok w) : getFieldD v k = w := by
  simp [getFieldD, h, Except.toOption]

theorem photoFold_ok (fs : JSVal → Bool) :
    ∀ (ps acc out : List JSVal), photoFold fs ps acc = .ok out →
      out = acc ++ ps.filterMap (photoEntryKept fs)
  | [], acc, out, h => by
      simp [photoFold] at h
      simp [h]
  | p :: ps, acc, out, h => by
      cases hg : getField p "path" with
      | error e =>
          simp [photoFold, hg] at h
      | ok path =>
          simp only [photoFold, hg] at h
          have ih := photoFold_ok fs ps _ out h
          have hkept : photoEntryKept fs p
              = if truthy path && fs path then some path else none := by
            simp [photoEntryKept, getFieldD_of_getField hg]
          by_cases hk : (truthy path && fs path) = true
          · simp only [hk, if_true] at ih hkept
            simp [List.filterMap_cons, hkept, ih]
          · simp only [hk, if_false] at ih hkept
            simp [List.filterMap_cons, hkept, ih]

theorem photoPathsOfNode_ok (fs : JSVal → Bool) (node : JSVal) (ps : List JSVal)
    (h : photoPathsOfNode fs node = .ok ps) :
    ps = (nodePhotoList node).filterMap (photoEntryKept fs) := by
  cases hg : getField node "photo" with
  | error e => simp [photoPathsOfNode, hg] at h
  | ok g =>
      have hd : getFieldD node "photo" = g := getFieldD_of_getField hg
      cases g with
      | arr l =>
          simp only [photoPathsOfNode, hg] at h
          have := photoFold_ok fs l [] ps h
          simpa [nodePhotoList, hd] using this
      | null => simp only [photoPathsOfNode, hg, Except.ok.injEq] at h; simp [nodePhotoList, hd, ← h]
      | undefined => simp only [photoPathsOfNode, hg, Except.ok.injEq] at h; simp [nodePhotoList, hd, ← h]
      | bool b => simp only [photoPathsOfNode, hg, Except.ok.injEq] at h; simp [nodePhotoList, hd, ← h]
      | num n => simp only [photoPathsOfNode, hg, Except.ok.injEq] at h; simp [nodePhotoList, hd, ← h]
      | str s => simp only [photoPathsOfNode, hg, Except.ok.injEq] at h; simp [nodePhotoList, hd, ← h]
      | obj fields => simp only [photoPathsOfNode, hg, Except.ok.injEq] at h; simp [nodePhotoList, hd, ← h]

theorem tagsOfNode_ok (node : JSVal) (ts : List JSVal)
    (h : tagsOfNode node = .ok ts) : ts = nodeTagList node := by
  cases hg : getField node "tag" with
  | error e => simp [tagsOfNode, hg] at h
  | ok g =>
      have hd : getFieldD node "tag" = g := getFieldD_of_getField hg
      cases g with
      | arr l => simp only [tagsOfNode, hg, Except.ok.injEq] at h; simp [nodeTagList, hd, ← h]
      | null => simp only [tagsOfNode, hg, Except.ok.injEq] at h; simp [nodeTagList, hd, ← h]
      | undefined => simp only [tagsOfNode, hg, Except.ok.injEq] at h; simp [nodeTagList, hd, ← h]
      | bool b => simp only [tagsOfNode, hg, Except.ok.injEq] at h; simp [nodeTagList, hd, ← h]
      | num n => simp only [tagsOfNode, hg, Except.ok.injEq] at h; simp [nodeTagList, hd, ← h]
      | str s => simp only [tagsOfNode, hg, Except.ok.injEq] at h; simp [nodeTagList, hd, ← h]
      | obj fields => simp only [tagsOfNode, hg, Except.ok.injEq] at h; simp [nodeTagList, hd, ← h]

theorem mem_addTag (acc : List JSVal) (x t : JSVal) :
    t ∈ addTag acc x ↔ t ∈ acc ∨ t = x := by
  by_cases hx : x ∈ acc
  · simp only [addTag, if_pos hx]
    exact ⟨Or.inl, fun h => h.elim id (fun ht => ht ▸ hx)⟩
  · simp [addTag, if_neg hx]

theorem nodup_addTag (acc : List JSVal) (x : JSVal) (h : acc.Nodup) :
    (addTag acc x).Nodup := by
  by_cases hx : x ∈ acc
  · simpa [addTag, if_pos hx] using h
  · simp [addTag, if_neg hx, List.nodup_append, h, hx]

theorem mem_foldl_addTag :
    ∀ (ts acc : List JSVal) (t : JSVal), t ∈ ts.foldl addTag acc ↔ t ∈ acc ∨ t ∈ ts
  | [], acc, t => by simp
  | x :: ts, acc, t => by
      rw [List.foldl_cons, mem_foldl_addTag ts (addTag acc x) t, mem_addTag]
      simp only [List.mem_cons]
      tauto

theorem nodup_foldl_addTag :
    ∀ (ts acc : List JSVal), acc.Nodup → (ts.foldl addTag acc).Nodup
  | [], acc, h => h
  | x :: ts, acc, h => by
      rw [List.foldl_cons]
      exact nodup_foldl_addTag ts (addTag acc x) (nodup_addTag acc x h)

theorem extractLoop_ok (fs : JSVal → Bool) :
    ∀ (nodes paths0 tags0 paths tags : List JSVal),
      extractLoop fs nodes paths0 tags0 = .ok (paths, tags) →
      paths = paths0 ++ collectedPathsSpec fs nodes
        ∧ (tags0.Nodup → tags.Nodup)
        ∧ (∀ t, t ∈ tags ↔ t ∈ tags0 ∨ t ∈ collectedTagsSpec nodes)
  | [], paths0, tags0, paths, tags, h => by
      simp only [extractLoop, Except.ok.injEq, Prod.mk.injEq] at h
      obtain ⟨rfl, rfl⟩ := h
      simp [collectedPathsSpec, collectedTagsSpec]
  | node :: rest, paths0, tags0, paths, tags, h => by
      cases h1 : photoPathsOfNode fs node with
      | error e => simp [extractLoop, h1] at h
      | ok ps =>
        cases h2 : tagsOfNode node with
        | error e => simp [extractLoop, h1, h2] at h
        | ok ts =>
          simp only [extractLoop, h1, h2] at h
          obtain ⟨ihp, ihn, ihm⟩ :=
            extractLoop_ok fs rest (paths0 ++ ps) (ts.foldl addTag tags0) paths tags h
          refine ⟨?_, ?_, ?_⟩
          · rw [ihp, photoPathsOfNode_ok fs node ps h1]
            simp [collectedPathsSpec, List.flatMap_cons, List.append_assoc]
          · intro h0
            exact ihn (nodup_foldl_addTag ts tags0 h0)
          · intro t
            rw [ihm t, mem_foldl_addTag, tagsOfNode_ok node ts h2]
            simp [collectedTagsSpec, List.flatMap_cons, or_assoc]

theorem extractAll_ok (fs : JSVal → Bool) (nodes paths tags : List JSVal)
    (h : extractAll fs nodes = .ok (paths, tags)) :
    paths = collectedPathsSpec fs nodes
      ∧ tags.Nodup
      ∧ (∀ t, t ∈ tags ↔ t ∈ collectedTagsSpec nodes) := by
  obtain ⟨hp, hn, hm⟩ := extractLoop_ok fs nodes [] [] paths tags h
  refine ⟨by simpa using hp, hn List.nodup_nil, fun t => by simpa using hm t⟩

theorem mem_collectedPathsSpec (fs : JSVal → Bool) (nodes : List JSVal) (p : JSVal)
    (h : p ∈ collectedPathsSpec fs nodes) : truthy p = true ∧ fs p = true := by
  rw [collectedPathsSpec, List.mem_flatMap] at h
  obtain ⟨node, _, hmem⟩ := h
  rw [List.mem_filterMap] at hmem
  obtain ⟨q, _, hq⟩ := hmem
  by_cases hk : (truthy (getFieldD q "path") && fs (getFieldD q "path")) = true
  · rw [photoEntryKept] at hq
    simp only [hk, if_true, Option.some.injEq] at hq
    subst hq
    exact ⟨(Bool.and_eq_true _ _ |>.mp hk).1, (Bool.and_eq_true _ _ |>.mp hk).2⟩
  · rw [photoEntryKept] at hq
    simp [hk] at hq

theorem getField_ok_of_truthy {v : JSVal} (k : String) (h : truthy v = true) :
    getField v k = .ok (getFieldD v k) := by
  cases v <;> simp_all [truthy, getField, getFieldD, Except.toOption]

/-- Structure of the one execution path of `export` that reaches the
uploader: a truthy payload, a non-empty `@graph` array, a successful
extraction with a non-empty path list, and the fixed empty caption. -/
theorem exportHook_uploadCall {fs : JSVal → Bool} {blogName : String} {data : JSVal}
    {u : Except String JSVal} {args : UploadArgs}
    (h : (exportHook fs blogName data u).uploadCall = some args) :
    ∃ nodes, truthy data = true ∧ getField data "@graph" = .ok (.arr nodes)
      ∧ nodes ≠ [] ∧ extractAll fs nodes = .ok (args.photoPaths, args.tags)
      ∧ args.photoPaths ≠ [] ∧ args.caption = "" := by
  by_cases ht : truthy data = false
  · simp [exportHook, ht] at h
  · have ht2 : truthy data = true := by
      cases hb : truthy data
      · exact absurd hb ht
      · rfl
    cases hg : getField data "@graph" with
    | error e => simp [exportHook, ht, hg] at h
    | ok g =>
      cases g with
      | null => simp [exportHook, ht, hg] at h
      | undefined => simp [exportHook, ht, hg] at h
      | bool b => simp [exportHook, ht, hg] at h
      | num n => simp [exportHook, ht, hg] at h
      | str s => simp [exportHook, ht, hg] at h
      | obj fields => simp [exportHook, ht, hg] at h
      | arr nodes =>
        by_cases hn : nodes.isEmpty
        · simp [exportHook, ht, hg, hn] at h
        · cases hx : extractAll fs nodes with
          | error e => simp [exportHook, ht, hg, hn, hx] at h
          | ok pr =>
            obtain ⟨photoPaths, tagArray⟩ := pr
            by_cases hp : photoPaths.isEmpty
            · simp [exportHook, ht, hg, hn, hx, hp] at h
            · have hargs :
                  args = { photoPaths := photoPaths, caption := "", tags := tagArray } := by
                cases u with
                | ok v => simp [exportHook, ht, hg, hn, hx, hp] at h; exact h.symm
                | error m => simp [exportHook, ht, hg, hn, hx, hp] at h; exact h.symm
              subst hargs
              refine ⟨nodes, ht2, rfl, ?_, by simpa using hx, ?_, rfl⟩
              · intro hnil
                exact hn (by simp [hnil])
              · intro hnil
                apply hp
                simp only [] at hnil
                simp [hnil]

/-- The no-op path of `export`: falsy payload, or a `@graph` that is not a
non-empty array, ends in the two informational log lines with no upload and
no exception. -/
theorem exportHook_noItems {fs : JSVal → Bool} {blogName : String} {data : JSVal}
    {u : Except String JSVal}
    (h : truthy data = false
        ∨ ∀ nodes, getFieldD data "@graph" = JSVal.arr nodes → nodes = []) :
    exportHook fs blogName data u =
      { logs := [LogEvent.info receivedMsg, LogEvent.info noItemsMsg]
        uploadCall := none, thrown := none } := by
  by_cases ht : truthy data = false
  · simp [exportHook, ht]
  · have ht2 : truthy data = true := by
      cases hb : truthy data
      · exact absurd hb ht
      · rfl
    have hg : getField data "@graph" = .ok (getFieldD data "@graph") :=
      getField_ok_of_truthy "@graph" ht2
    rcases h with h | h
    · exact absurd h ht
    · cases hgd : getFieldD data "@graph" with
      | arr nodes =>
          have : nodes = [] := h nodes hgd
          subst this
          rw [hgd] at hg
          simp [exportHook, ht, hg]
      | null => rw [hgd] at hg; simp [exportHook, ht, hg]
      | undefined => rw [hgd] at hg; simp [exportHook, ht, hg]
      | bool b => rw [hgd] at hg; simp [exportHook, ht, hg]
      | num n => rw [hgd] at hg; simp [exportHook, ht, hg]
      | str s => rw [hgd] at hg; simp [exportHook, ht, hg]
      | obj fields => rw [hgd] at hg; simp [exportHook, ht, hg]

/-- The empty-filter path of `export`: a non-empty graph whose extraction
succeeds with no kept photo path ends in the no-local-photos log line with no
upload and no exception. -/
theorem exportHook_noLocalPhotos {fs : JSVal → Bool} {blogName : String} {data : JSVal}
    {u : Except String JSVal} {nodes tags : List JSVal}
    (ht : truthy data = true) (hg : getField data "@graph" = .ok (.arr nodes))
    (hn : nodes ≠ []) (hx : extractAll fs nodes = .ok ([], tags)) :
    exportHook fs blogName data u =
      { logs := [LogEvent.info receivedMsg, LogEvent.info noLocalPhotosMsg]
        uploadCall := none, thrown := none } := by
  have ht2 : ¬(truthy data = false) := by simp [ht]
  have hn2 : nodes.isEmpty = false := by
    cases nodes
    · exact absurd rfl hn
    · rfl
  simp [exportHook, ht2, hg, hn2, hx]

/-- The failing-upload path of `export`: after a successful extraction with a
non-empty path list, a rejected upload is logged as an error and nothing is
thrown. -/
theorem exportHook_uploadErr {fs : JSVal → Bool} {blogName : String} {data : JSVal}
    {e : String} {nodes photoPaths tags : List JSVal}
    (ht : truthy data = true) (hg : getField data "@graph" = .ok (.arr nodes))
    (hn : nodes ≠ []) (hx : extractAll fs nodes = .ok (photoPaths, tags))
    (hp : photoPaths ≠ []) :
    exportHook fs blogName data (.error e) =
      { logs := [LogEvent.info receivedMsg,
                 LogEvent.info (postingMsg photoPaths.length blogName),
                 LogEvent.error (failedMsg e)]
        uploadCall := some { photoPaths := photoPaths, caption := "", tags := tags }
        thrown := none } := by
  have ht2 : ¬(truthy data = false) := by simp [ht]
  have hn2 : nodes.isEmpty = false := by
    cases nodes
    · exact absurd rfl hn
    · rfl
  have hp2 : photoPaths.isEmpty = false := by
    cases photoPaths
    · exact absurd rfl hp
    · rfl
  simp [exportHook, ht2, hg, hn2, hx, hp2]

theorem objLookup_append (a b : List (String × JSVal)) (k : String) :
    objLookup (a ++ b) k = (objLookup b k).orElse (fun _ => objLookup a k) := by
  rw [objLookup, List.reverse_append, List.find?_append]
  cases h : b.reverse.find? (fun kv => kv.1 == k) <;>
    simp [objLookup, h, Option.orElse]

/-! ## Claims -/

/-- C1: the uploader is invoked only when at least one photo path is truthy
(non-empty, for a string) and passes the existence check; a photo path is
collected exactly when it is truthy and the existence check succeeds; and
when the filtered path list is empty the export stops after an informational
log with no upload attempt. -/
theorem export_upload_requires_existing_paths (fs : JSVal → Bool) (blogName : String)
    (data : JSVal) (u : Except String JSVal) :
    (∀ args, (exportHook fs blogName data u).uploadCall = some args →
        args.photoPaths ≠ []
          ∧ ∀ p ∈ args.photoPaths, truthy p = true ∧ fs p = true)
    ∧ (∀ nodes paths tags, extractAll fs nodes = Except.ok (paths, tags) →
        paths = collectedPathsSpec fs nodes)
    ∧ (∀ s : String, truthy (JSVal.str s) = !s.isEmpty)
    ∧ (∀ nodes tags, truthy data = true →
        getField data "@graph" = Except.ok (JSVal.arr nodes) → nodes ≠ [] →
        extractAll fs nodes = Except.ok ([], tags) →
        exportHook fs blogName data u =
          { logs := [LogEvent.info receivedMsg, LogEvent.info noLocalPhotosMsg]
            uploadCall := none, thrown := none }) := by
  refine ⟨?_, ?_, fun s => rfl, ?_⟩
  · intro args h
    obtain ⟨nodes, ht, hg, hn, hx, hne, hcap⟩ := exportHook_uploadCall h
    obtain ⟨hp, _, _⟩ := extractAll_ok fs nodes _ _ hx
    refine ⟨hne, fun p hp2 => mem_collectedPathsSpec fs nodes p (hp ▸ hp2)⟩
  · intro nodes paths tags hx
    exact (extractAll_ok fs nodes paths tags hx).1
  · intro nodes tags ht hg hn hx
    exact exportHook_noLocalPhotos ht hg hn hx

theorem export_upload_requires_existing_paths_witness :
    ([JSVal.str "p1"] : List JSVal) ≠ []
      ∧ ∀ p ∈ ([JSVal.str "p1"] : List JSVal), truthy p = true ∧ fsAll p = true := by
  have h :=
    (export_upload_requires_existing_paths fsAll "blog" onePhotoPayload
        (Except.ok JSVal.null)).1
      { photoPaths := [JSVal.str "p1"], caption := "", tags := [] } rfl
  simpa using h

/-- C2: a missing payload, or a `@graph` that is absent, not a list, or an
empty list, is treated as nothing to export: two informational log lines,
no collected paths, no upload call, and no error reaches the host. -/
theorem export_missing_or_empty_graph_noop (fs : JSVal → Bool) (blogName : String)
    (u : Except String JSVal) (data : JSVal)
    (h : truthy data = false
        ∨ ∀ nodes, getFieldD data "@graph" = JSVal.arr nodes → nodes = []) :
    exportHook fs blogName data u =
      { logs := [LogEvent.info receivedMsg, LogEvent.info noItemsMsg]
        uploadCall := none, thrown := none } :=
  exportHook_noItems h

theorem export_missing_or_empty_graph_noop_witness :
    exportHook fsNone "blog" JSVal.null (Except.ok JSVal.null) =
      { logs := [LogEvent.info receivedMsg, LogEvent.info noItemsMsg]
        uploadCall := none, thrown := none } :=
  export_missing_or_empty_graph_noop fsNone "blog" (Except.ok JSVal.null) JSVal.null
    (Or.inl rfl)

/-- C3: for a response whose body parses as JSON, the uploader returns the
parsed body unchanged on an ok status, and on a failing status throws an
error whose message includes the numeric status code and the serialized
body; it returns normally if and only if the status is ok. -/
theorem uploader_json_response_status (blogName : String) (photoPaths : List JSVal)
    (caption : String) (tags : List JSVal) (status : Nat) (j : JSVal) :
    (responseOk status = true →
        (postPhotosToTumblr blogName photoPaths caption tags ⟨status, .ok j⟩).result
          = .ok j)
    ∧ (responseOk status = false →
        (postPhotosToTumblr blogName photoPaths caption tags ⟨status, .ok j⟩).result
            = .error ("Tumblr API error (status=" ++ toString status ++ "): "
                ++ jsonStringify j)
          ∧ ∃ a b,
              (postPhotosToTumblr blogName photoPaths caption tags ⟨status, .ok j⟩).result
                = .error (a ++ toString status ++ b ++ jsonStringify j))
    ∧ ((∃ v, (postPhotosToTumblr blogName photoPaths caption tags ⟨status, .ok j⟩).result
          = .ok v) ↔ responseOk status = true) := by
  refine ⟨?_, ?_, ?_, ?_⟩
  · intro hok
    simp [postPhotosToTumblr, handleResponse, hok]
  · intro hko
    refine ⟨by simp [postPhotosToTumblr, handleResponse, hko], ?_⟩
    exact ⟨"Tumblr API error (status=", "): ",
      by simp [postPhotosToTumblr, handleResponse, hko, String.append_assoc]⟩
  · rintro ⟨v, hv⟩
    cases hok : responseOk status
    · simp [postPhotosToTumblr, handleResponse, hok] at hv
    · rfl
  · intro hok
    exact ⟨j, by simp [postPhotosToTumblr, handleResponse, hok]⟩

theorem uploader_json_response_status_witness :
    (postPhotosToTumblr "blog" [] "" [] ⟨200, .ok (JSVal.str "x")⟩).result
        = .ok (JSVal.str "x")
      ∧ (postPhotosToTumblr "blog" [] "" [] ⟨401, .ok (JSVal.str "x")⟩).result
        = .error ("Tumblr API error (status=" ++ toString 401 ++ "): "
            ++ jsonStringify (JSVal.str "x")) :=
  ⟨(uploader_json_response_status "blog" [] "" [] 200 (JSVal.str "x")).1 (by decide),
   ((uploader_json_response_status "blog" [] "" [] 401 (JSVal.str "x")).2.1
      (by decide)).1⟩

/-- C4: for a response whose body does not parse as JSON, the uploader fails
with a message that names the parse failure and embeds the raw parse error,
whatever the HTTP status is: the parse check comes before the status check. -/
theorem uploader_parse_failure_first (blogName : String) (photoPaths : List JSVal)
    (caption : String) (tags : List JSVal) (status : Nat) (e : String) :
    (postPhotosToTumblr blogName photoPaths caption tags ⟨status, .error e⟩).result
      = .error ("Tumblr response is not valid JSON: " ++ e) := rfl

/-- C5: a failure of the uploader is caught at the export hook boundary and
logged through logger.error; it is never rethrown, so whenever the uploader
was invoked and failed, export returns normally. -/
theorem export_catches_uploader_failure (fs : JSVal → Bool) (blogName : String)
    (data : JSVal) (e : String)
    (h : ((exportHook fs blogName data (.error e)).uploadCall).isSome = true) :
    (exportHook fs blogName data (.error e)).thrown = none
      ∧ LogEvent.error (failedMsg e) ∈ (exportHook fs blogName data (.error e)).logs := by
  obtain ⟨args, harg⟩ := Option.isSome_iff_exists.mp h
  obtain ⟨nodes, ht, hg, hn, hx, hne, hcap⟩ := exportHook_uploadCall harg
  have hout :=
    @exportHook_uploadErr fs blogName data e _ _ _ ht hg hn hx hne
  rw [hout]
  exact ⟨rfl, by simp⟩

theorem export_catches_uploader_failure_witness :
    (exportHook fsAll "blog" onePhotoPayload (Except.error "boom")).thrown = none
      ∧ LogEvent.error (failedMsg "boom")
          ∈ (exportHook fsAll "blog" onePhotoPayload (Except.error "boom")).logs :=
  export_catches_uploader_failure fsAll "blog" onePhotoPayload "boom" rfl

/-- C6: the tag collection passed to the uploader is the deduplicated set of
all tag strings across all items, each distinct tag exactly once; for items
with tags `[a, b, a]` and `[b, c]` the uploader receives exactly the set
containing a, b and c. -/
theorem export_tags_deduplicated (fs : JSVal → Bool) (blogName : String)
    (data : JSVal) (u : Except String JSVal) :
    (∀ args nodes, getField data "@graph" = Except.ok (JSVal.arr nodes) →
        (exportHook fs blogName data u).uploadCall = some args →
        args.tags.Nodup ∧ ∀ t, t ∈ args.tags ↔ t ∈ collectedTagsSpec nodes)
    ∧ (exportHook fsAll "blog" tagPayload (Except.ok JSVal.null)).uploadCall
        = some { photoPaths := [JSVal.str "p1"], caption := ""
                 tags := [JSVal.str "a", JSVal.str "b", JSVal.str "c"] }
    ∧ (∀ t, t ∈ ([JSVal.str "a", JSVal.str "b", JSVal.str "c"] : List JSVal)
        ↔ (t = JSVal.str "a" ∨ t = JSVal.str "b" ∨ t = JSVal.str "c")) := by
  refine ⟨?_, rfl, ?_⟩
  · intro args nodes hg hc
    obtain ⟨nodes2, ht, hg2, hn, hx, hne, hcap⟩ := exportHook_uploadCall hc
    rw [hg] at hg2
    have hnn : nodes = nodes2 := by
      have := hg2
      simp only [Except.ok.injEq, JSVal.arr.injEq] at this
      exact this
    subst hnn
    obtain ⟨_, hnd, hm⟩ := extractAll_ok fs nodes _ _ hx
    exact ⟨hnd, hm⟩
  · intro t
    simp

theorem export_tags_deduplicated_witness :
    ([JSVal.str "a", JSVal.str "b", JSVal.str "c"] : List JSVal).Nodup
      ∧ ∀ t, t ∈ ([JSVal.str "a", JSVal.str "b", JSVal.str "c"] : List JSVal)
          ↔ t ∈ collectedTagsSpec tagNodes := by
  have h :=
    (export_tags_deduplicated fsAll "blog" tagPayload (Except.ok JSVal.null)).1
      { photoPaths := [JSVal.str "p1"], caption := ""
        tags := [JSVal.str "a", JSVal.str "b", JSVal.str "c"] }
      tagNodes rfl rfl
  simpa using h

/-- C7: every uploader call builds a form with the fixed type field, the
caption field as passed (and the export flow always passes the empty
caption), a comma-joined tags field present exactly when the tag list is
non-empty, and one binary part per photo path; with one path and no tags the
form is exactly the type field, an empty caption field, and one binary part. -/
theorem uploader_form_parts (blogName : String) (photoPaths : List JSVal)
    (caption : String) (tags : List JSVal) (resp : TumblrResponse)
    (fs : JSVal → Bool) (data : JSVal) (u : Except String JSVal) (p : JSVal) :
    FormPart.field "type" "photo"
        ∈ (postPhotosToTumblr blogName photoPaths caption tags resp).form
    ∧ FormPart.field "caption" caption
        ∈ (postPhotosToTumblr blogName photoPaths caption tags resp).form
    ∧ (tags ≠ [] → FormPart.field "tags" (joinTags tags)
        ∈ (postPhotosToTumblr blogName photoPaths caption tags resp).form)
    ∧ ((∃ s, FormPart.field "tags" s
          ∈ (postPhotosToTumblr blogName photoPaths caption tags resp).form)
        ↔ tags ≠ [])
    ∧ (postPhotosToTumblr blogName photoPaths caption tags resp).form.countP
        FormPart.isFile = photoPaths.length
    ∧ (∀ args, (exportHook fs blogName data u).uploadCall = some args →
        args.caption = "")
    ∧ (postPhotosToTumblr blogName [p] "" [] resp).form
        = [FormPart.field "type" "photo", FormPart.field "caption" "",
           FormPart.file "data[]" p] := by
  have hne : ∀ ts : List JSVal, ts ≠ [] → ts.length > 0 := by
    intro ts h
    cases ts
    · exact absurd rfl h
    · simp
  refine ⟨?_, ?_, ?_, ⟨?_, ?_⟩, ?_, ?_, rfl⟩
  · simp [postPhotosToTumblr, buildForm]
  · simp [postPhotosToTumblr, buildForm]
  · intro h
    simp [postPhotosToTumblr, buildForm, hne tags h]
  · rintro ⟨s, hs⟩
    intro hnil
    subst hnil
    simp [postPhotosToTumblr, buildForm] at hs
  · intro h
    exact ⟨joinTags tags, by simp [postPhotosToTumblr, buildForm, hne tags h]⟩
  · by_cases h : tags = []
    · subst h
      simp [postPhotosToTumblr, buildForm, List.countP_append, List.countP_map,
        FormPart.isFile, List.countP_true]
    · simp [postPhotosToTumblr, buildForm, hne tags h, List.countP_append,
        List.countP_map, FormPart.isFile, List.countP_true]
  · intro args h
    obtain ⟨nodes, ht, hg, hn, hx, hne, hcap⟩ := exportHook_uploadCall h
    exact hcap

theorem uploader_form_parts_witness :
    FormPart.field "tags" (joinTags [JSVal.str "t"])
      ∈ (postPhotosToTumblr "blog" [] "" [JSVal.str "t"]
          ⟨200, Except.ok JSVal.null⟩).form :=
  (uploader_form_parts "blog" [] "" [JSVal.str "t"] ⟨200, Except.ok JSVal.null⟩
      fsAll JSVal.null (Except.ok JSVal.null) JSVal.null).2.2.1 (by simp)

/-- C8: the effective configuration is the placeholder defaults overridden
key by key by the user options: for each of the five credential keys the user
value wins when present, and a missing key silently falls back to its
placeholder, with no validation. -/
theorem config_user_overrides_defaults (options : List (String × JSVal)) :
    mkConfig options =
      { blogName := (objLookup options "blogName").getD (JSVal.str "YOUR_BLOG_NAME")
        consumerKey :=
          (objLookup options "consumerKey").getD (JSVal.str "YOUR_DEFAULT_CONSUMER_KEY")
        consumerSecret :=
          (objLookup options "consumerSecret").getD
            (JSVal.str "YOUR_DEFAULT_CONSUMER_SECRET")
        token := (objLookup options "token").getD (JSVal.str "YOUR_DEFAULT_TOKEN")
        tokenSecret :=
          (objLookup options "tokenSecret").getD
            (JSVal.str "YOUR_DEFAULT_TOKEN_SECRET") } := by
  have hmerge : ∀ (k : String) (d : JSVal), objLookup defaults k = some d →
      (objLookup (spreadMerge defaults options) k).getD JSVal.undefined
        = (objLookup options k).getD d := by
    intro k d hd
    rw [spreadMerge, objLookup_append]
    cases h : objLookup options k <;> simp [h, hd, Option.orElse]
  simp only [mkConfig, Config.mk.injEq]
  exact ⟨hmerge "blogName" _ rfl, hmerge "consumerKey" _ rfl,
    hmerge "consumerSecret" _ rfl, hmerge "token" _ rfl, hmerge "tokenSecret" _ rfl⟩

/-- C9: the try/catch in export covers only the upload call, not the
extraction: on a payload with a non-empty graph whose photo array contains
`null`, reading `p.path` throws, the exception escapes export uncaught, the
uploader is never invoked, and nothing is logged through logger.error. -/
theorem export_extraction_throw_escapes (fs : JSVal → Bool) (blogName : String)
    (u : Except String JSVal) :
    exportHook fs blogName badPhotoPayload u =
      { logs := [LogEvent.info receivedMsg], uploadCall := none
        thrown := some (JSError.typeError
          "Cannot read properties of null (reading path)") }
      ∧ getFieldD badPhotoPayload "@graph"
          = JSVal.arr [JSVal.obj [("photo", JSVal.arr [JSVal.null])]] :=
  ⟨rfl, rfl⟩

/-- C10: the OAuth signature is computed over an empty request parameter
set: the request description handed to the signer is identical for any two
uploader calls that share the blog name, whatever the photo paths, caption,
or tags, so any signing function (at a fixed nonce and timestamp) produces
the same Authorization header for both. -/
theorem oauth_signature_ignores_body (blogName : String)
    (p1 : List JSVal) (c1 : String) (t1 : List JSVal) (r1 : TumblrResponse)
    (p2 : List JSVal) (c2 : String) (t2 : List JSVal) (r2 : TumblrResponse) :
    (postPhotosToTumblr blogName p1 c1 t1 r1).request
        = (postPhotosToTumblr blogName p2 c2 t2 r2).request
    ∧ (postPhotosToTumblr blogName p1 c1 t1 r1).request.data = []
    ∧ ∀ (sign : OAuthRequest → String → String → String) (nonce ts : String),
        sign (postPhotosToTumblr blogName p1 c1 t1 r1).request nonce ts
          = sign (postPhotosToTumblr blogName p2 c2 t2 r2).request nonce ts :=
  ⟨rfl, rfl, fun _ _ _ => rfl⟩

end TropyToTumblr
